import Mathlib

/-!
Verification development for the punch_chat repository.

This file shallowly embeds the real-time connection registry
(`app/websocket/manager.py`), the chat service (`app/services/chat_service.py`),
the WebSocket session handler's authentication gate and relay step
(`app/main.py`), and the add-member HTTP handler (`app/api/chat_router.py`),
and proves properties of these embeddings.

Modelling conventions:
- WebSocket connections are identified by natural numbers.
- The Python dict `active_connections : Dict[int, Set[WebSocket]]` is embedded
  as a function `Nat → Option (Finset Nat)`; `none` means the key is absent.
- `await ws.send_json(...)` either succeeds or raises; this is modelled by a
  success oracle `ok : Nat → Bool` turned into an `Except`-valued `send`.
- Database state is an explicit structure of lists of rows, with counters for
  the autoincrement primary keys and a clock for server-assigned timestamps.
-/

/-! ## Connection registry (`app/websocket/manager.py`, class ConnectionManager) -/

/-- State of `ConnectionManager.active_connections`: a dict from room id to the
set of live websockets of that room; `none` models an absent key. -/
abbrev Registry := Nat → Option (Finset Nat)

/-- Fresh `ConnectionManager` state: `self.active_connections = {}`. -/
def Registry.empty : Registry := fun _ => none

/-- Dict update: set (or delete, with `none`) the entry of key `r`. -/
def Registry.update (m : Registry) (r : Nat) (v : Option (Finset Nat)) : Registry :=
  fun r' => if r' = r then v else m r'

/-- `ConnectionManager.connect` (manager.py lines 16-24), after the transport
`accept`: if the room key is absent, install an empty set; then add the
websocket to the room's set. -/
def connect (m : Registry) (r : Nat) (ws : Nat) : Registry :=
  match m r with
  | none => m.update r (some {ws})
  | some s => m.update r (some (insert ws s))

/-- `ConnectionManager.disconnect` (manager.py lines 26-34): if the room key is
present, discard the websocket from its set and delete the key when the set
becomes empty. -/
def disconnect (m : Registry) (r : Nat) (ws : Nat) : Registry :=
  match m r with
  | none => m
  | some s =>
    let s' := s.erase ws
    if s' = ∅ then m.update r none else m.update r (some s')

/-- One `await ws.send_json(message)` call: raises (models the `except` arm)
exactly when the success oracle says the connection is broken. -/
def send (ok : Nat → Bool) (ws : Nat) : Except Unit Unit :=
  if ok ws then Except.ok () else Except.error ()

/-- The `try/except` around `send_json` in `ConnectionManager.broadcast`
(manager.py lines 49-53): a raising send is caught and the websocket is
appended to `dead`; returns `true` iff delivery succeeded. -/
def broadcastTry (ok : Nat → Bool) (ws : Nat) : Bool :=
  match send ok ws with
  | Except.ok _ => true
  | Except.error _ => false

/-- `ConnectionManager.broadcast` (manager.py lines 36-56): look up the room's
set (`.get`); `if not connections: return` covers both an absent key and a
present-but-empty set; attempt delivery to every member, collecting the
failures in `dead`; finally discard each dead websocket from the set (the room
key itself is never deleted here). Every exception from a send is caught, so
the embedded function is total: nothing propagates out of `broadcast`.
Returns the new registry and the set of websockets that received the payload. -/
def broadcast (m : Registry) (r : Nat) (ok : Nat → Bool) : Registry × Finset Nat :=
  match m r with
  | none => (m, ∅)
  | some s =>
    if s = ∅ then (m, ∅)
    else
      let dead := s.filter (fun ws => broadcastTry ok ws = false)
      (m.update r (some (s \ dead)), s.filter (fun ws => broadcastTry ok ws = true))

/-- An operation on the registry, as invoked by the session handlers. -/
inductive RegOp where
  | join (r : Nat) (ws : Nat)
  | leave (r : Nat) (ws : Nat)
  | bcast (r : Nat) (ok : Nat → Bool)

/-- Interpret one registry operation. -/
def applyOp (m : Registry) : RegOp → Registry
  | RegOp.join r ws => connect m r ws
  | RegOp.leave r ws => disconnect m r ws
  | RegOp.bcast r ok => (broadcast m r ok).1

/-- Run a sequence of registry operations from the fresh manager state. -/
def runOps (ops : List RegOp) : Registry := ops.foldl applyOp Registry.empty

/-- Whether an operation is a pure join/leave (no broadcast pruning). -/
def RegOp.isJoinLeave : RegOp → Bool
  | RegOp.join _ _ => true
  | RegOp.leave _ _ => true
  | RegOp.bcast _ _ => false

/-- Membership test: is connection `c` in room `r`'s subscriber set? -/
def memberB (m : Registry) (r : Nat) (c : Nat) : Bool :=
  match m r with
  | none => false
  | some s => decide (c ∈ s)

/-- A join or leave on one fixed (room, connection) pair. -/
inductive PairOp where
  | join
  | leave
deriving DecidableEq

/-- Realize a pair operation as a registry operation on the fixed pair. -/
def toRegOp (r c : Nat) : PairOp → RegOp
  | PairOp.join => RegOp.join r c
  | PairOp.leave => RegOp.leave r c

/-- Membership of the fixed pair after one more operation: a join makes the
connection a member, a leave removes it (set semantics, not a counter). -/
def stepPair : Bool → PairOp → Bool
  | _, PairOp.join => true
  | _, PairOp.leave => false

/-- Fold step computing, along with the current membership bit, the list of
operations performed since the last time the membership was empty. -/
def sinceStep (p : Bool × List PairOp) (op : PairOp) : Bool × List PairOp :=
  let b := stepPair p.1 op
  (b, if b then p.2 ++ [op] else [])

/-- The operations performed since the last time the pair's membership was
empty (the suffix after the most recent point at which the connection was not
a member of the room's set). -/
def sinceLastEmpty (ops : List PairOp) : List PairOp :=
  (ops.foldl sinceStep (false, [])).2

/-- Number of joins in a list of pair operations. -/
def joinCount (l : List PairOp) : Nat :=
  l.countP (fun op => match op with | PairOp.join => true | PairOp.leave => false)

/-- Number of leaves in a list of pair operations. -/
def leaveCount (l : List PairOp) : Nat :=
  l.countP (fun op => match op with | PairOp.join => false | PairOp.leave => true)

/-- Registry holding exactly the fixed pair (when `b`) and nothing else. -/
def pairReg (r c : Nat) (b : Bool) : Registry :=
  if b then Registry.empty.update r (some {c}) else Registry.empty

/-- Invariant: every present room key maps to a non-empty set. -/
def RegInv (m : Registry) : Prop := ∀ r s, m r = some s → s ≠ ∅

/-- Invariant of the `sinceStep` fold: while the pair is a member the suffix
has strictly more joins than leaves, and while it is not the suffix is empty. -/
def SinceInv (p : Bool × List PairOp) : Prop :=
  (p.1 = true → leaveCount p.2 < joinCount p.2) ∧ (p.1 = false → p.2 = [])

/-! ## Data model (`app/models/chat.py`, `app/models/user.py`) -/

/-- `RoomType` enum of models/chat.py. -/
inductive RoomType where
  | DIRECT
  | GROUP
deriving DecidableEq

/-- A `chat_rooms` row (class ChatRoom). `is_active` defaults to true. -/
structure ChatRoomRow where
  id : Nat
  name : Option String
  room_type : RoomType
  is_active : Bool
deriving DecidableEq

/-- A `room_memberships` row (class RoomMembership). -/
structure MembershipRow where
  id : Nat
  room_id : Nat
  user_id : Nat
deriving DecidableEq

/-- A `messages` row (class Message); `created_at` is the server-assigned
timestamp, modelled as a natural number. -/
structure MessageRow where
  id : Nat
  room_id : Nat
  sender_id : Nat
  content : String
  created_at : Nat
deriving DecidableEq

/-- A `users` row (class User), restricted to the fields the embedded code
reads: primary key, username and the active flag. -/
structure UserRow where
  id : Nat
  username : String
  is_active : Bool
deriving DecidableEq

/-- Relational store state: the row lists, autoincrement counters for the
primary keys of rooms, memberships and messages, and the server clock used
for `created_at` defaults. -/
structure DB where
  rooms : List ChatRoomRow
  memberships : List MembershipRow
  messages : List MessageRow
  users : List UserRow
  next_room_id : Nat
  next_membership_id : Nat
  next_message_id : Nat
  now : Nat
deriving DecidableEq

/-! ## Chat service (`app/services/chat_service.py`, class ChatService) -/

/-- `ChatService.get_room_for_user` (chat_service.py lines 58-80): the first
room row satisfying the join/where clause — the room has the requested id, is
active, and some membership row links it to the requested user; `none` models
the empty result set. -/
def get_room_for_user (db : DB) (room_id user_id : Nat) : Option ChatRoomRow :=
  db.rooms.find? (fun room =>
    room.id == room_id && room.is_active &&
      db.memberships.any (fun m => m.room_id == room.id && m.user_id == user_id))

/-- Outcome of one call to `check_message_allowed` (ai/moderator.py) as seen
by `save_message`: either the gate returned `(allowed, reason)`, or the call
itself raised. -/
inductive GateResult where
  | ok (allowed : Bool) (reason : Option String)
  | exn
deriving DecidableEq

/-- `MessageCreate` schema (schemas/chat.py) as consumed by `save_message`. -/
structure MessageCreate where
  room_id : Nat
  content : String
deriving DecidableEq

/-- `ChatService.save_message` (chat_service.py lines 220-255), parameterized
by the moderation gate. The `try/except` around `check_message_allowed` turns
a raising gate into `allowed = True, block_reason = None` (fail-open). If not
allowed, return `(None, reason)` with the store untouched; otherwise insert a
new `messages` row with the server-assigned id and timestamp and return it. -/
def save_message (db : DB) (gate : String → GateResult) (message_in : MessageCreate)
    (sender_id : Nat) : (Option MessageRow × Option String) × DB :=
  let moderation :=
    match gate message_in.content with
    | GateResult.ok a r => (a, r)
    | GateResult.exn => (true, none)
  if moderation.1 = false then
    ((none, moderation.2), db)
  else
    let message : MessageRow :=
      { id := db.next_message_id
        room_id := message_in.room_id
        sender_id := sender_id
        content := message_in.content
        created_at := db.now }
    ((some message, none),
      { db with
          messages := db.messages ++ [message]
          next_message_id := db.next_message_id + 1 })

/-- `ChatService.get_room_messages` (chat_service.py lines 257-275): the
room's messages ordered newest first (descending `created_at`), with
offset/limit pagination. -/
def get_room_messages (db : DB) (room_id : Nat) (limit : Nat := 50)
    (offset : Nat := 0) : List MessageRow :=
  ((((db.messages.filter (fun m => m.room_id == room_id)).mergeSort
      (fun a b => b.created_at ≤ a.created_at)).drop offset).take limit)

/-- Python's `sorted([user_a_id, user_b_id])` (chat_service.py line 112). -/
def sortedPair (user_a_id user_b_id : Nat) : List Nat :=
  if user_a_id ≤ user_b_id then [user_a_id, user_b_id] else [user_b_id, user_a_id]

/-- The dedup test of `ChatService.get_or_create_direct_room` (chat_service.py
lines 114-127): a room matches when it is of DIRECT type and exactly two of
its membership rows have a user in the sorted pair `user_ids`. SQL reports
the matching `room_id`s in an unspecified order; the embedding scans the
stored rooms in row order and keeps the first match. -/
def directRoomMatches (db : DB) (user_ids : List Nat) (room : ChatRoomRow) : Bool :=
  room.room_type == RoomType.DIRECT &&
    (db.memberships.filter
      (fun m => m.room_id == room.id && user_ids.contains m.user_id)).length == 2

/-- The fresh DIRECT room row inserted by `get_or_create_direct_room` when no
existing room matches (chat_service.py lines 137-142): autoincrement id, no
name, DIRECT type, active by default. -/
def newDirectRoom (db : DB) : ChatRoomRow :=
  { id := db.next_room_id, name := none, room_type := RoomType.DIRECT
    is_active := true }

/-- The membership rows inserted by the `for uid in user_ids` loop of
`get_or_create_direct_room` (chat_service.py lines 144-145): one row per user
id, with autoincrement membership ids, all pointing at the fresh room. -/
def newDirectMemberships (db : DB) (user_ids : List Nat) : List MembershipRow :=
  user_ids.enum.map (fun p =>
    { id := db.next_membership_id + p.1
      room_id := db.next_room_id
      user_id := p.2 })

/-- `ChatService.get_or_create_direct_room` (chat_service.py lines 98-150):
sort the two user ids, look for an existing matching DIRECT room and return
it unchanged, else insert a fresh DIRECT room plus one membership row per
user and return the new room. -/
def get_or_create_direct_room (db : DB) (user_a_id user_b_id : Nat) :
    ChatRoomRow × DB :=
  let user_ids := sortedPair user_a_id user_b_id
  match db.rooms.find? (directRoomMatches db user_ids) with
  | some room => (room, db)
  | none =>
    (newDirectRoom db,
      { db with
          rooms := db.rooms ++ [newDirectRoom db]
          memberships := db.memberships ++ newDirectMemberships db user_ids
          next_room_id := db.next_room_id + 1
          next_membership_id := db.next_membership_id + user_ids.length })

/-- `ChatService.add_member_to_group` (chat_service.py lines 152-218): the
guard chain raising `ValueError` (modelled as `Except.error` with the message
text) and, on success, the inserted membership row and the returned room. -/
def add_member_to_group (db : DB) (room_id : Nat) (new_username : String)
    (acting_user_id : Nat) : Except String (ChatRoomRow × DB) :=
  match db.rooms.find? (fun room => room.id == room_id) with
  | none => Except.error "Room not found"
  | some room =>
    if room.room_type ≠ RoomType.GROUP then
      Except.error "Can only add members to group rooms"
    else
      match db.memberships.find?
          (fun m => m.room_id == room_id && m.user_id == acting_user_id) with
      | none => Except.error "You are not a member of this room"
      | some _ =>
        match db.users.find? (fun u => u.username == new_username) with
        | none => Except.error "User not found"
        | some new_user =>
          match db.memberships.find?
              (fun m => m.room_id == room_id && m.user_id == new_user.id) with
          | some _ => Except.error "User is already a member of this room"
          | none =>
            let membership : MembershipRow :=
              { id := db.next_membership_id
                room_id := room_id
                user_id := new_user.id }
            Except.ok (room,
              { db with
                  memberships := db.memberships ++ [membership]
                  next_membership_id := db.next_membership_id + 1 })

/-! ## WebSocket session handler (`app/main.py`, `websocket_chat`) -/

/-- Decoded JWT payload as read by `websocket_chat`: the subject user id and
the token type string (`decode_jwt_token` returns the payload dict or `None`
for an invalid or expired token). -/
structure TokenPayload where
  sub : Nat
  type : String
deriving DecidableEq

/-- The connection-rejection gate of `websocket_chat` (main.py lines 85-104):
`some code` is the close code the websocket is closed with, `none` means the
handshake proceeds to `manager.connect`. In row order: a missing/invalid
payload or a non-"access" type closes with 4401; an unknown or inactive user
(looked up by the payload's subject) closes with 4403; a failing
`get_room_for_user` check closes with 4404. -/
def wsAuthClose (db : DB) (payload : Option TokenPayload) (room_id : Nat) :
    Option Nat :=
  match payload with
  | none => some 4401
  | some p =>
    if p.type ≠ "access" then some 4401
    else
      match db.users.find? (fun u => u.id == p.sub) with
      | none => some 4403
      | some user =>
        if user.is_active = false then some 4403
        else
          match get_room_for_user db room_id p.sub with
          | none => some 4404
          | some _ => none

/-- The success branch of the `Joined` loop in `websocket_chat` (main.py lines
136-145): after `save_message` succeeds the handler calls
`manager.broadcast(room_id, frame)` — the registry delivers the frame to every
websocket registered under the room; the handler passes no sender exclusion. -/
def relayToRoom (m : Registry) (r : Nat) (ok : Nat → Bool) : Registry × Finset Nat :=
  broadcast m r ok

/-! ## Add-member endpoint (`app/api/chat_router.py`) -/

/-- `AddMemberRequest` (chat_router.py lines 14-15) declares exactly one
field, `user_name`; a pydantic model instance exposes exactly its declared
fields as attributes, so attribute access is modelled as a lookup in the
field list built by the constructor. -/
def addMemberRequestFields (user_name : String) : List (String × String) :=
  [("user_name", user_name)]

/-- Python attribute access on a pydantic model: `some` value for a declared
field, `none` models the `AttributeError` raised for an undeclared name. -/
def getAttribute (fields : List (String × String)) (name : String) : Option String :=
  (fields.find? (fun p => p.1 == name)).map (fun p => p.2)

/-- Observable outcome of `ChatRouter.add_member`. -/
inductive AddMemberOutcome where
  | ok (room : ChatRoomRow) (db : DB)
  | badRequest (detail : String)
  | attributeError (name : String)
deriving DecidableEq

/-- `ChatRouter.add_member` (chat_router.py lines 47-70): inside the `try`
block the handler evaluates `body.username` to build the service call; only
`ValueError` is converted to a 400 response, so the `AttributeError` from the
undeclared attribute propagates. On a successful service call the room is
returned. -/
def add_member (db : DB) (room_id : Nat) (body_user_name : String)
    (acting_user_id : Nat) : AddMemberOutcome :=
  match getAttribute (addMemberRequestFields body_user_name) "username" with
  | none => AddMemberOutcome.attributeError "username"
  | some uname =>
    match add_member_to_group db room_id uname acting_user_id with
    | Except.ok (room, db') => AddMemberOutcome.ok room db'
    | Except.error e => AddMemberOutcome.badRequest e

/-! ## Sample data for concrete instantiations -/

/-- Sample store: an active GROUP room 1 with users 1 and 2, an inactive
DIRECT room 2 with users 1 and 3; user 1 (alice) and user 3 (carol) are
active, user 2 (bob) is inactive. -/
def dbEx : DB :=
  { rooms :=
      [ { id := 1, name := some "general", room_type := RoomType.GROUP, is_active := true }
      , { id := 2, name := none, room_type := RoomType.DIRECT, is_active := false } ]
    memberships :=
      [ { id := 1, room_id := 1, user_id := 1 }
      , { id := 2, room_id := 1, user_id := 2 }
      , { id := 3, room_id := 2, user_id := 1 }
      , { id := 4, room_id := 2, user_id := 3 } ]
    messages := []
    users :=
      [ { id := 1, username := "alice", is_active := true }
      , { id := 2, username := "bob", is_active := false }
      , { id := 3, username := "carol", is_active := true } ]
    next_room_id := 3
    next_membership_id := 5
    next_message_id := 1
    now := 10 }

/-- Moderation gate that blocks exactly the text "X". -/
def gateBlockX : String → GateResult :=
  fun s => if s == "X" then GateResult.ok false (some "Blocked as toxic (score=0.97)")
           else GateResult.ok true none

/-- Moderation gate whose call always raises. -/
def gateRaise : String → GateResult := fun _ => GateResult.exn

/-- Well-formedness of a store, as guaranteed by the schema and the service
invariants: membership rows carry pairwise distinct (room, user) pairs;
room ids and membership room references stay below the room autoincrement
counter; and every DIRECT room has exactly two membership rows (models/chat.py
invariant documented in the service: direct rooms are created with exactly two
members and `add_member_to_group` refuses non-GROUP rooms). -/
def WF (db : DB) : Prop :=
  db.memberships.Pairwise
      (fun m1 m2 => (m1.room_id, m1.user_id) ≠ (m2.room_id, m2.user_id))
  ∧ (∀ room ∈ db.rooms, room.id < db.next_room_id)
  ∧ (∀ m ∈ db.memberships, m.room_id < db.next_room_id)
  ∧ (∀ room ∈ db.rooms, room.room_type = RoomType.DIRECT →
      (db.memberships.filter (fun m => m.room_id == room.id)).length = 2)

/-! ## Helper lemmas -/

/-- Delivery of one send succeeds exactly when the success oracle says so. -/
theorem broadcastTry_eq (ok : Nat → Bool) (ws : Nat) : broadcastTry ok ws = ok ws := by
  unfold broadcastTry send
  cases h : ok ws <;> simp [h]

/-- Updating the same key twice keeps only the second value. -/
theorem Registry.update_update (m : Registry) (r : Nat) (v w : Option (Finset Nat)) :
    (m.update r v).update r w = m.update r w := by
  funext r'
  unfold Registry.update
  by_cases h : r' = r <;> simp [h]

/-- Deleting a key of the empty registry is a no-op. -/
theorem Registry.update_none_empty (r : Nat) :
    Registry.empty.update r none = Registry.empty := by
  funext r'
  unfold Registry.update Registry.empty
  by_cases h : r' = r <;> simp [h]

/-- Every message returned by a history fetch is a stored message row. -/
theorem mem_of_mem_get_room_messages (db : DB) (room_id limit offset : Nat)
    (m : MessageRow) (h : m ∈ get_room_messages db room_id limit offset) :
    m ∈ db.messages := by
  unfold get_room_messages at h
  have h1 := List.mem_of_mem_take h
  have h2 := List.mem_of_mem_drop h1
  rw [List.mem_mergeSort] at h2
  exact (List.mem_filter.mp h2).1

/-! ## C10 -/

/-- Claim C10: every call to the add-member endpoint with a syntactically
valid body fails before reaching the chat service — the handler reads
`body.username` while `AddMemberRequest` only declares `user_name`, so the
outcome is always the propagated `AttributeError` and never a success. -/
theorem add_member_always_attribute_error (db : DB) (room_id : Nat)
    (body_user_name : String) (acting_user_id : Nat) :
    add_member db room_id body_user_name acting_user_id =
      AddMemberOutcome.attributeError "username" := by
  rfl

/-! ## C5 -/

/-- Claim C5: when the moderation gate call itself raises, `save_message`
is fail-open — the message is treated as allowed, persisted with the
server-assigned id and timestamp, and returned; the gate's error is not
propagated and the message is not blocked. -/
theorem save_message_gate_failure_fail_open (db : DB) (gate : String → GateResult)
    (message_in : MessageCreate) (sender_id : Nat)
    (h : gate message_in.content = GateResult.exn) :
    save_message db gate message_in sender_id =
      ((some { id := db.next_message_id
               room_id := message_in.room_id
               sender_id := sender_id
               content := message_in.content
               created_at := db.now }, none),
       { db with
           messages := db.messages ++
             [{ id := db.next_message_id
                room_id := message_in.room_id
                sender_id := sender_id
                content := message_in.content
                created_at := db.now }]
           next_message_id := db.next_message_id + 1 }) := by
  unfold save_message
  rw [h]
  rfl

/-- Witness for C5 at a concrete store, sender and always-raising gate. -/
theorem save_message_gate_failure_fail_open_witness :
    save_message dbEx gateRaise { room_id := 1, content := "hi" } 1 =
      ((some { id := 1, room_id := 1, sender_id := 1, content := "hi",
               created_at := 10 }, none),
       { dbEx with
           messages := [{ id := 1, room_id := 1, sender_id := 1, content := "hi",
                          created_at := 10 }]
           next_message_id := 2 }) :=
  save_message_gate_failure_fail_open dbEx gateRaise { room_id := 1, content := "hi" } 1 rfl

/-! ## C2 -/

/-- Claim C2: when the moderation gate blocks the text, `save_message`
returns the blocked result carrying the reason and leaves the store
unchanged; a subsequent history fetch is unchanged and, if the blocked text
was not already stored, no fetched message carries it. -/
theorem save_message_blocked_no_write (db : DB) (gate : String → GateResult)
    (message_in : MessageCreate) (sender_id : Nat) (reason : String)
    (h : gate message_in.content = GateResult.ok false (some reason)) :
    save_message db gate message_in sender_id = ((none, some reason), db)
    ∧ (∀ room_id limit offset,
        get_room_messages (save_message db gate message_in sender_id).2 room_id limit offset
          = get_room_messages db room_id limit offset)
    ∧ ((∀ m ∈ db.messages, m.content ≠ message_in.content) →
        ∀ room_id limit offset,
          ∀ m ∈ get_room_messages (save_message db gate message_in sender_id).2
              room_id limit offset,
            m.content ≠ message_in.content) := by
  have hmain : save_message db gate message_in sender_id = ((none, some reason), db) := by
    unfold save_message
    rw [h]
    rfl
  refine ⟨hmain, ?_, ?_⟩
  · intro room_id limit offset
    rw [hmain]
  · intro hfresh room_id limit offset m hm
    rw [hmain] at hm
    exact hfresh m (mem_of_mem_get_room_messages db room_id limit offset m hm)

/-- Witness for C2: the gate blocking "X" at a concrete store and sender. -/
theorem save_message_blocked_no_write_witness :
    save_message dbEx gateBlockX { room_id := 1, content := "X" } 1 =
      ((none, some "Blocked as toxic (score=0.97)"), dbEx)
    ∧ (∀ room_id limit offset,
        get_room_messages (save_message dbEx gateBlockX { room_id := 1, content := "X" } 1).2
            room_id limit offset
          = get_room_messages dbEx room_id limit offset)
    ∧ ((∀ m ∈ dbEx.messages, m.content ≠ ({ room_id := 1, content := "X" } : MessageCreate).content) →
        ∀ room_id limit offset,
          ∀ m ∈ get_room_messages (save_message dbEx gateBlockX { room_id := 1, content := "X" } 1).2
              room_id limit offset,
            m.content ≠ ({ room_id := 1, content := "X" } : MessageCreate).content) :=
  save_message_blocked_no_write dbEx gateBlockX { room_id := 1, content := "X" } 1
    "Blocked as toxic (score=0.97)" (by decide)

/-! ## C3 -/

/-- Claim C3: `get_room_for_user` returns a room only when that room has the
requested id, is active, and a membership row links it to the requested user;
whenever no such active membership-bearing room exists it returns the one
"not found" value `none`, so a missing room and a non-membership are
indistinguishable. -/
theorem get_room_for_user_authz (db : DB) (room_id user_id : Nat) :
    (∀ room, get_room_for_user db room_id user_id = some room →
      room ∈ db.rooms ∧ room.id = room_id ∧ room.is_active = true
        ∧ ∃ m ∈ db.memberships, m.room_id = room_id ∧ m.user_id = user_id)
    ∧ ((¬ ∃ room ∈ db.rooms, room.id = room_id ∧ room.is_active = true
          ∧ ∃ m ∈ db.memberships, m.room_id = room.id ∧ m.user_id = user_id) →
        get_room_for_user db room_id user_id = none)
    ∧ (∀ room_id' user_id',
        get_room_for_user db room_id user_id = none →
        get_room_for_user db room_id' user_id' = none →
        get_room_for_user db room_id user_id = get_room_for_user db room_id' user_id') := by
  have hchar : ∀ room, get_room_for_user db room_id user_id = some room →
      room ∈ db.rooms ∧ room.id = room_id ∧ room.is_active = true
        ∧ ∃ m ∈ db.memberships, m.room_id = room_id ∧ m.user_id = user_id := by
    intro room hfind
    have hmem := List.mem_of_find?_eq_some hfind
    have hp := List.find?_some hfind
    simp only [Bool.and_eq_true, beq_iff_eq, List.any_eq_true] at hp
    obtain ⟨⟨hid, hact⟩, m, hm, hmr, hmu⟩ := hp
    exact ⟨hmem, hid, hact, m, hm, by rw [hmr, hid], hmu⟩
  refine ⟨hchar, ?_, ?_⟩
  · intro hno
    cases hfind : get_room_for_user db room_id user_id with
    | none => rfl
    | some room =>
      obtain ⟨hmem, hid, hact, m, hm, hmr, hmu⟩ := hchar room hfind
      exact absurd ⟨room, hmem, hid, hact, m, hm, by rw [hid, hmr], hmu⟩ hno
  · intro room_id' user_id' h1 h2
    rw [h1, h2]

/-- Witness for C3: in the sample store, user 1 gets the active GROUP room 1;
user 3 is not a member of room 1, room 9 does not exist, and room 2 is
inactive — all three failures return the same `none`. -/
theorem get_room_for_user_authz_witness :
    ({ id := 1, name := some "general", room_type := RoomType.GROUP,
       is_active := true } : ChatRoomRow) ∈ dbEx.rooms
    ∧ (1 : Nat) = 1 ∧ true = true
    ∧ (∃ m ∈ dbEx.memberships, m.room_id = 1 ∧ m.user_id = 1)
    ∧ get_room_for_user dbEx 1 3 = none
    ∧ get_room_for_user dbEx 9 1 = none
    ∧ get_room_for_user dbEx 2 1 = none
    ∧ get_room_for_user dbEx 1 3 = get_room_for_user dbEx 9 1 := by
  have h1 := (get_room_for_user_authz dbEx 1 1).1
    { id := 1, name := some "general", room_type := RoomType.GROUP, is_active := true }
    (by decide)
  have h2 := (get_room_for_user_authz dbEx 1 3).2.1 (by decide)
  have h3 := (get_room_for_user_authz dbEx 9 1).2.1 (by decide)
  have h4 := (get_room_for_user_authz dbEx 2 1).2.1 (by decide)
  have h5 := (get_room_for_user_authz dbEx 1 3).2.2 9 1 h2 h3
  exact ⟨h1.1, h1.2.1, h1.2.2.1, h1.2.2.2, h2, h3, h4, h5⟩

/-! ## C1 -/

/-- Claim C1: when a registered connection's delivery fails during
`broadcast`, delivery is still attempted to every registered connection —
exactly those whose send succeeds receive the payload — the raised send is
caught inside `broadcast`, and the failing connection is absent from the
room's subscriber set after `broadcast` returns. -/
theorem broadcast_isolation (m : Registry) (r : Nat) (s : Finset Nat)
    (ok : Nat → Bool) (w : Nat)
    (hm : m r = some s) (hw : w ∈ s) (hfail : ok w = false) :
    (∀ v ∈ s, ok v = true → v ∈ (broadcast m r ok).2)
    ∧ w ∉ ((broadcast m r ok).1 r).getD ∅
    ∧ (broadcast m r ok).2 = s.filter (fun v => ok v = true) := by
  have hne : s ≠ ∅ := Finset.ne_empty_of_mem hw
  have hb : broadcast m r ok =
      (m.update r (some (s \ s.filter (fun v => broadcastTry ok v = false))),
        s.filter (fun v => broadcastTry ok v = true)) := by
    unfold broadcast
    rw [hm]
    simp [hne]
  have hfil : s.filter (fun v => broadcastTry ok v = true)
      = s.filter (fun v => ok v = true) := by
    apply Finset.filter_congr
    intro v _
    rw [broadcastTry_eq]
  refine ⟨?_, ?_, ?_⟩
  · intro v hv hok
    rw [hb]
    simp only [Finset.mem_filter]
    exact ⟨hv, by rw [broadcastTry_eq]; exact hok⟩
  · rw [hb]
    dsimp only
    have hupd : Registry.update m r
        (some (s \ s.filter (fun v => broadcastTry ok v = false))) r
        = some (s \ s.filter (fun v => broadcastTry ok v = false)) := by
      unfold Registry.update
      simp
    rw [hupd, Option.getD_some, Finset.mem_sdiff]
    intro hcontra
    exact hcontra.2 (Finset.mem_filter.mpr ⟨hw, by rw [broadcastTry_eq]; exact hfail⟩)
  · rw [hb]
    exact hfil

/-- Witness for C1: room 1 holds connections 0 and 1; connection 0's send
raises, connection 1 still receives, and 0 is pruned from the set. -/
theorem broadcast_isolation_witness :
    (∀ v ∈ ({0, 1} : Finset Nat), (fun v => v == 1) v = true →
      v ∈ (broadcast (Registry.empty.update 1 (some {0, 1})) 1 (fun v => v == 1)).2)
    ∧ (0 : Nat) ∉ (((broadcast (Registry.empty.update 1 (some {0, 1})) 1
        (fun v => v == 1)).1 1).getD ∅)
    ∧ (broadcast (Registry.empty.update 1 (some {0, 1})) 1 (fun v => v == 1)).2
        = ({0, 1} : Finset Nat).filter (fun v => (fun v => v == 1) v = true) :=
  broadcast_isolation (Registry.empty.update 1 (some {0, 1})) 1 {0, 1}
    (fun v => v == 1) 0 (by decide) (by decide) (by decide)

/-! ## C4 -/

/-- Counterexample to C4: after `join(1, 0)` followed by a broadcast in which
connection 0's send fails, the registry still holds room key 1, now mapped to
the empty set — `broadcast` prunes dead connections but never deletes the
emptied room key, so the claimed invariant fails on broadcast traces. -/
theorem registry_empty_set_reachable_cex :
    ¬ (∀ (ops : List RegOp) (r : Nat) (s : Finset Nat),
        runOps ops r = some s → s ≠ ∅) := by
  intro h
  exact h [RegOp.join 1 0, RegOp.bcast 1 (fun _ => false)] 1 ∅ (by decide) rfl

/-- Lemma: `connect` preserves the non-empty-sets invariant. -/
theorem connect_regInv (m : Registry) (r ws : Nat) (h : RegInv m) :
    RegInv (connect m r ws) := by
  intro r' s' hs'
  unfold connect Registry.update at hs'
  cases hm : m r with
  | none =>
    rw [hm] at hs'
    dsimp only at hs'
    by_cases hr : r' = r
    · rw [if_pos hr] at hs'
      cases hs'
      exact Finset.singleton_ne_empty ws
    · rw [if_neg hr] at hs'
      exact h r' s' hs'
  | some s =>
    rw [hm] at hs'
    dsimp only at hs'
    by_cases hr : r' = r
    · rw [if_pos hr] at hs'
      cases hs'
      exact Finset.insert_ne_empty ws s
    · rw [if_neg hr] at hs'
      exact h r' s' hs'

/-- Lemma: `disconnect` preserves the non-empty-sets invariant (an emptied
set's key is deleted). -/
theorem disconnect_regInv (m : Registry) (r ws : Nat) (h : RegInv m) :
    RegInv (disconnect m r ws) := by
  intro r' s' hs'
  unfold disconnect Registry.update at hs'
  cases hm : m r with
  | none =>
    rw [hm] at hs'
    exact h r' s' hs'
  | some s =>
    rw [hm] at hs'
    dsimp only at hs'
    by_cases hemp : s.erase ws = ∅
    · rw [if_pos hemp] at hs'
      by_cases hr : r' = r
      · rw [if_pos hr] at hs'
        cases hs'
      · rw [if_neg hr] at hs'
        exact h r' s' hs'
    · rw [if_neg hemp] at hs'
      by_cases hr : r' = r
      · rw [if_pos hr] at hs'
        cases hs'
        exact hemp
      · rw [if_neg hr] at hs'
        exact h r' s' hs'

/-- Lemma: a join/leave-only trace preserves the invariant from any start. -/
theorem foldl_regInv (ops : List RegOp) :
    ∀ m : Registry, RegInv m → (∀ op ∈ ops, op.isJoinLeave = true) →
      RegInv (ops.foldl applyOp m) := by
  induction ops with
  | nil => intro m hm _; exact hm
  | cons op rest ih =>
    intro m hm hops
    rw [List.foldl_cons]
    refine ih (applyOp m op) ?_ (fun o ho => hops o (List.mem_cons_of_mem op ho))
    have hop := hops op (List.mem_cons_self op rest)
    cases op with
    | join r ws => exact connect_regInv m r ws hm
    | leave r ws => exact disconnect_regInv m r ws hm
    | bcast r ok => cases hop

/-- Claim C4, amended: after every finite sequence of join and leave
operations every present room key maps to a non-empty subscriber set (lazy
creation, eager deletion); the original claim also allowed broadcast
operations, but broadcast pruning does not delete an emptied room's key (see
the counterexample), so the invariant holds only for join/leave traces. -/
theorem registry_nonempty_join_leave (ops : List RegOp)
    (hops : ∀ op ∈ ops, op.isJoinLeave = true) :
    ∀ r s, runOps ops r = some s → s ≠ ∅ := by
  have hinv : RegInv (ops.foldl applyOp Registry.empty) :=
    foldl_regInv ops Registry.empty (fun r s hs => by cases hs) hops
  exact hinv

/-- Witness for C4 (amended) on the trace join, join, leave. -/
theorem registry_nonempty_join_leave_witness :
    ({0} : Finset Nat) ≠ ∅ :=
  registry_nonempty_join_leave [RegOp.join 1 0, RegOp.join 1 1, RegOp.leave 1 1]
    (by
      intro op hop
      simp only [List.mem_cons, List.not_mem_nil, or_false] at hop
      rcases hop with rfl | rfl | rfl <;> rfl)
    1 {0} (by decide)

/-! ## C6 -/

/-- Counterexample to C6: connections 0 (the sender) and 1 are registered in
room 1; after a successful message the handler's relay step broadcasts with
no sender exclusion, so the sender receives its own frame along with the
other subscriber — the claimed single-unicast-to-others policy does not hold. -/
theorem relay_echoes_sender_cex :
    (0 : Nat) ∈ (relayToRoom (connect (connect Registry.empty 1 0) 1 1) 1
        (fun _ => true)).2
    ∧ (1 : Nat) ∈ (relayToRoom (connect (connect Registry.empty 1 0) 1 1) 1
        (fun _ => true)).2 := by
  constructor <;> decide

/-- Claim C6, amended: the relay step after a persisted message delivers the
broadcast frame to every connection registered in the room whose send
succeeds, including the sending connection itself — the frame is echoed back
to the sender (there is no sender exclusion in the handler or the registry). -/
theorem relay_delivers_to_all_including_sender (m : Registry) (r : Nat)
    (s : Finset Nat) (ok : Nat → Bool) (sender : Nat)
    (hm : m r = some s) (hs : sender ∈ s) (hok : ok sender = true) :
    sender ∈ (relayToRoom m r ok).2
    ∧ ∀ v ∈ s, ok v = true → v ∈ (relayToRoom m r ok).2 := by
  have hne : s ≠ ∅ := Finset.ne_empty_of_mem hs
  have hb : (relayToRoom m r ok).2 = s.filter (fun v => broadcastTry ok v = true) := by
    unfold relayToRoom broadcast
    rw [hm]
    simp [hne]
  constructor
  · rw [hb]
    exact Finset.mem_filter.mpr ⟨hs, by rw [broadcastTry_eq]; exact hok⟩
  · intro v hv hokv
    rw [hb]
    exact Finset.mem_filter.mpr ⟨hv, by rw [broadcastTry_eq]; exact hokv⟩

/-- Witness for C6 (amended): sender 0 in room 1 with subscriber set that
also holds 1; both receive the frame. -/
theorem relay_delivers_to_all_including_sender_witness :
    (0 : Nat) ∈ (relayToRoom (Registry.empty.update 1 (some {0, 1})) 1
        (fun _ => true)).2
    ∧ ∀ v ∈ ({0, 1} : Finset Nat), (fun _ => true) v = true →
        v ∈ (relayToRoom (Registry.empty.update 1 (some {0, 1})) 1 (fun _ => true)).2 :=
  relay_delivers_to_all_including_sender (Registry.empty.update 1 (some {0, 1}))
    1 {0, 1} (fun _ => true) 0 (by decide) (by decide) rfl

/-! ## C7 -/

/-- Counterexample to C7: in the sample store, an invalid/expired credential
(no payload) and a valid credential of the wrong kind ("refresh") both close
the connection with the same code 4401, so the four rejection conditions do
not map to pairwise distinct codes. -/
theorem close_codes_not_distinct_cex :
    wsAuthClose dbEx none 1 = some 4401
    ∧ wsAuthClose dbEx (some { sub := 1, type := "refresh" }) 1 = some 4401
    ∧ wsAuthClose dbEx none 1
        = wsAuthClose dbEx (some { sub := 1, type := "refresh" }) 1 := by
  exact ⟨by decide, by decide, by decide⟩

/-- Claim C7, amended: an invalid/expired credential and a credential not of
the access kind both close with code 4401 (these two conditions are not
distinguishable); an unknown or inactive user closes with 4403 and a
non-member with 4404, and codes 4401, 4403 and 4404 are pairwise distinct. -/
theorem close_codes_partition (db : DB) (p : TokenPayload) (room_id : Nat) :
    wsAuthClose db none room_id = some 4401
    ∧ (p.type ≠ "access" → wsAuthClose db (some p) room_id = some 4401)
    ∧ (p.type = "access" → db.users.find? (fun u => u.id == p.sub) = none →
        wsAuthClose db (some p) room_id = some 4403)
    ∧ (∀ u, p.type = "access" → db.users.find? (fun u' => u'.id == p.sub) = some u →
        u.is_active = false → wsAuthClose db (some p) room_id = some 4403)
    ∧ (∀ u, p.type = "access" → db.users.find? (fun u' => u'.id == p.sub) = some u →
        u.is_active = true → get_room_for_user db room_id p.sub = none →
        wsAuthClose db (some p) room_id = some 4404)
    ∧ ((4401 : Nat) ≠ 4403 ∧ (4401 : Nat) ≠ 4404 ∧ (4403 : Nat) ≠ 4404) := by
  refine ⟨rfl, ?_, ?_, ?_, ?_, by decide, by decide, by decide⟩
  · intro hk
    unfold wsAuthClose
    dsimp only
    rw [if_pos hk]
  · intro hk hu
    unfold wsAuthClose
    dsimp only
    rw [if_neg (not_not_intro hk), hu]
  · intro u hk hu hact
    unfold wsAuthClose
    dsimp only
    rw [if_neg (not_not_intro hk), hu]
    dsimp only
    rw [if_pos hact]
  · intro u hk hu hact hroom
    unfold wsAuthClose
    dsimp only
    rw [if_neg (not_not_intro hk), hu]
    dsimp only
    rw [if_neg (by simp [hact]), hroom]

/-- Witness for C7 (amended) covering all four rejection conditions in the
sample store: user 99 is unknown, user 2 is inactive, user 1 is active but
not a member of any room 9. -/
theorem close_codes_partition_witness :
    wsAuthClose dbEx none 1 = some 4401
    ∧ wsAuthClose dbEx (some { sub := 1, type := "refresh" }) 1 = some 4401
    ∧ wsAuthClose dbEx (some { sub := 99, type := "access" }) 1 = some 4403
    ∧ wsAuthClose dbEx (some { sub := 2, type := "access" }) 2 = some 4403
    ∧ wsAuthClose dbEx (some { sub := 1, type := "access" }) 9 = some 4404 := by
  refine ⟨(close_codes_partition dbEx { sub := 1, type := "refresh" } 1).1,
    (close_codes_partition dbEx { sub := 1, type := "refresh" } 1).2.1 (by decide),
    (close_codes_partition dbEx { sub := 99, type := "access" } 1).2.2.1 rfl (by decide),
    (close_codes_partition dbEx { sub := 2, type := "access" } 2).2.2.2.1
      { id := 2, username := "bob", is_active := false } rfl (by decide) rfl,
    (close_codes_partition dbEx { sub := 1, type := "access" } 9).2.2.2.2.1
      { id := 1, username := "alice", is_active := true } rfl (by decide) rfl (by decide)⟩

/-! ## C9 -/

/-- Lemma: one registry operation on the fixed pair moves the two-point
abstraction `pairReg` along `stepPair`. -/
theorem applyOp_pairReg (r c : Nat) (b : Bool) (op : PairOp) :
    applyOp (pairReg r c b) (toRegOp r c op) = pairReg r c (stepPair b op) := by
  cases op with
  | join =>
    cases b with
    | false =>
      show connect Registry.empty r c = Registry.empty.update r (some {c})
      unfold connect Registry.empty
      rfl
    | true =>
      show connect (Registry.empty.update r (some {c})) r c
        = Registry.empty.update r (some {c})
      unfold connect
      have hlook : Registry.empty.update r (some {c}) r = some {c} := by
        unfold Registry.update
        simp
      rw [hlook]
      dsimp only
      rw [Finset.insert_eq_self.mpr (Finset.mem_singleton_self c)]
      exact Registry.update_update Registry.empty r (some {c}) (some {c})
  | leave =>
    cases b with
    | false =>
      show disconnect Registry.empty r c = Registry.empty
      unfold disconnect Registry.empty
      rfl
    | true =>
      show disconnect (Registry.empty.update r (some {c})) r c = Registry.empty
      unfold disconnect
      have hlook : Registry.empty.update r (some {c}) r = some {c} := by
        unfold Registry.update
        simp
      rw [hlook]
      dsimp only
      rw [if_pos (Finset.erase_singleton c)]
      rw [Registry.update_update Registry.empty r (some {c}) none]
      exact Registry.update_none_empty r

/-- Lemma: a trace of operations on one fixed pair keeps the registry within
the two-point abstraction, following the `stepPair` fold. -/
theorem foldl_pairReg (r c : Nat) (ops : List PairOp) :
    ∀ b : Bool, (ops.map (toRegOp r c)).foldl applyOp (pairReg r c b)
      = pairReg r c (ops.foldl stepPair b) := by
  induction ops with
  | nil => intro b; rfl
  | cons op rest ih =>
    intro b
    rw [List.map_cons, List.foldl_cons, List.foldl_cons, applyOp_pairReg]
    exact ih (stepPair b op)

/-- Lemma: membership of the fixed pair in the two-point abstraction is the
abstraction's bit. -/
theorem memberB_pairReg (r c : Nat) (b : Bool) :
    memberB (pairReg r c b) r c = b := by
  cases b with
  | false => rfl
  | true =>
    show memberB (Registry.empty.update r (some {c})) r c = true
    unfold memberB
    have hlook : Registry.empty.update r (some {c}) r = some {c} := by
      unfold Registry.update
      simp
    rw [hlook]
    simp

/-- Lemma: the first component of the `sinceStep` fold is the `stepPair`
fold of the first component. -/
theorem foldl_sinceStep_fst (ops : List PairOp) :
    ∀ p : Bool × List PairOp, (ops.foldl sinceStep p).1 = ops.foldl stepPair p.1 := by
  induction ops with
  | nil => intro p; rfl
  | cons op rest ih =>
    intro p
    rw [List.foldl_cons, List.foldl_cons, ih]
    rfl

/-- Lemma: `sinceStep` preserves the suffix invariant. -/
theorem sinceStep_sinceInv (p : Bool × List PairOp) (op : PairOp)
    (h : SinceInv p) : SinceInv (sinceStep p op) := by
  cases op with
  | join =>
    have hstep : sinceStep p PairOp.join = (true, p.2 ++ [PairOp.join]) := rfl
    rw [hstep]
    have hj : joinCount (p.2 ++ [PairOp.join]) = joinCount p.2 + 1 := by
      unfold joinCount
      rw [List.countP_append]
      rfl
    have hl : leaveCount (p.2 ++ [PairOp.join]) = leaveCount p.2 := by
      unfold leaveCount
      rw [List.countP_append]
      rfl
    constructor
    · intro _
      cases hb : p.1 with
      | true =>
        have hlt := h.1 hb
        rw [hj, hl]
        omega
      | false =>
        rw [h.2 hb]
        decide
    · intro hcontra
      cases hcontra
  | leave =>
    have hstep : sinceStep p PairOp.leave = (false, []) := rfl
    rw [hstep]
    exact ⟨fun hcontra => absurd hcontra Bool.false_ne_true, fun _ => rfl⟩

/-- Lemma: the suffix invariant holds after any fold from the initial state. -/
theorem foldl_sinceInv (ops : List PairOp) :
    ∀ p : Bool × List PairOp, SinceInv p → SinceInv (ops.foldl sinceStep p) := by
  induction ops with
  | nil => intro p hp; exact hp
  | cons op rest ih =>
    intro p hp
    rw [List.foldl_cons]
    exact ih (sinceStep p op) (sinceStep_sinceInv p op hp)

/-- Claim C9: for every finite sequence of join/leave calls on a fixed
(room, connection) pair, the connection is in the room's subscriber set iff
the number of joins strictly exceeds the number of leaves since the last
time that membership was empty. -/
theorem join_leave_symmetry (r c : Nat) (ops : List PairOp) :
    memberB (runOps (ops.map (toRegOp r c))) r c = true ↔
      leaveCount (sinceLastEmpty ops) < joinCount (sinceLastEmpty ops) := by
  have hrun : runOps (ops.map (toRegOp r c)) = pairReg r c (ops.foldl stepPair false) := by
    unfold runOps
    have hstart : (Registry.empty : Registry) = pairReg r c false := rfl
    rw [hstart]
    exact foldl_pairReg r c ops false
  rw [hrun, memberB_pairReg]
  have hfst : (ops.foldl sinceStep (false, [])).1 = ops.foldl stepPair false :=
    foldl_sinceStep_fst ops (false, [])
  have hinv : SinceInv (ops.foldl sinceStep (false, [])) :=
    foldl_sinceInv ops (false, [])
      ⟨fun h => absurd h Bool.false_ne_true, fun _ => rfl⟩
  unfold sinceLastEmpty
  cases hbv : ops.foldl stepPair false with
  | true =>
    constructor
    · intro _
      exact hinv.1 (hfst.trans hbv)
    · intro _
      rfl
  | false =>
    constructor
    · intro hcontra
      exact absurd hcontra Bool.false_ne_true
    · intro hcount
      rw [hinv.2 (hfst.trans hbv)] at hcount
      exact absurd hcount (by decide)

/-! ## C8 -/

/-- Lemma: sorting a two-element pair is symmetric. -/
theorem sortedPair_comm (a b : Nat) : sortedPair b a = sortedPair a b := by
  unfold sortedPair
  by_cases h1 : a ≤ b
  · by_cases h2 : b ≤ a
    · have hab : a = b := Nat.le_antisymm h1 h2
      rw [hab]
    · rw [if_neg h2, if_pos h1]
  · by_cases h2 : b ≤ a
    · rw [if_pos h2, if_neg h1]
    · exact absurd (Nat.le_of_not_le h1) h2

/-- Lemma: the sorted pair holds exactly the two user ids. -/
theorem mem_sortedPair (a b x : Nat) : x ∈ sortedPair a b ↔ x = a ∨ x = b := by
  unfold sortedPair
  by_cases h : a ≤ b
  · rw [if_pos h]
    simp only [List.mem_cons, List.not_mem_nil, or_false]
  · rw [if_neg h]
    simp only [List.mem_cons, List.not_mem_nil, or_false]
    exact Or.comm

/-- Lemma: the sorted pair has two elements. -/
theorem sortedPair_length (a b : Nat) : (sortedPair a b).length = 2 := by
  unfold sortedPair
  by_cases h : a ≤ b
  · rw [if_pos h]
    rfl
  · rw [if_neg h]
    rfl

/-- Lemma: `get_or_create_direct_room` is symmetric in its two arguments. -/
theorem goc_comm (db : DB) (a b : Nat) :
    get_or_create_direct_room db b a = get_or_create_direct_room db a b := by
  unfold get_or_create_direct_room
  rw [sortedPair_comm]

/-- Lemma: when the dedup query finds a room, it is returned with the store
untouched. -/
theorem goc_found (db : DB) (a b : Nat) (room : ChatRoomRow)
    (h : db.rooms.find? (directRoomMatches db (sortedPair a b)) = some room) :
    get_or_create_direct_room db a b = (room, db) := by
  unfold get_or_create_direct_room
  dsimp only
  rw [h]

/-- Lemma: when the dedup query finds nothing, the fresh room and its two
membership rows are inserted. -/
theorem goc_create (db : DB) (a b : Nat)
    (h : db.rooms.find? (directRoomMatches db (sortedPair a b)) = none) :
    get_or_create_direct_room db a b =
      (newDirectRoom db,
        { db with
            rooms := db.rooms ++ [newDirectRoom db]
            memberships := db.memberships ++
              newDirectMemberships db (sortedPair a b)
            next_room_id := db.next_room_id + 1
            next_membership_id :=
              db.next_membership_id + (sortedPair a b).length }) := by
  unfold get_or_create_direct_room
  dsimp only
  rw [h]

/-- Lemma: every inserted membership row points at the fresh room. -/
theorem newDirectMemberships_room_id (db : DB) (user_ids : List Nat)
    (m : MembershipRow) (hm : m ∈ newDirectMemberships db user_ids) :
    m.room_id = db.next_room_id := by
  unfold newDirectMemberships at hm
  obtain ⟨p, _, hp⟩ := List.mem_map.mp hm
  rw [← hp]

/-- Lemma: the inserted membership rows carry exactly the given user ids. -/
theorem newDirectMemberships_user_ids (db : DB) (user_ids : List Nat) :
    (newDirectMemberships db user_ids).map (fun m => m.user_id) = user_ids := by
  unfold newDirectMemberships
  rw [List.map_map]
  exact List.enum_map_snd user_ids

/-- Lemma: as many membership rows are inserted as there are user ids. -/
theorem newDirectMemberships_length (db : DB) (user_ids : List Nat) :
    (newDirectMemberships db user_ids).length = user_ids.length := by
  unfold newDirectMemberships
  rw [List.length_map, List.enum_length]

/-- Lemma: in a well-formed store, a room matched by the dedup query has
exactly two membership rows and their users are exactly the requested pair. -/
theorem found_room_memberships (db : DB) (a b : Nat) (hwf : WF db)
    (room : ChatRoomRow) (hroom : room ∈ db.rooms)
    (hmatch : directRoomMatches db (sortedPair a b) room = true) :
    ((db.memberships.filter (fun m => m.room_id == room.id)).map
        (fun m => m.user_id)).length = 2
    ∧ ∀ x, x ∈ (db.memberships.filter (fun m => m.room_id == room.id)).map
        (fun m => m.user_id) ↔ (x = a ∨ x = b) := by
  unfold directRoomMatches at hmatch
  rw [Bool.and_eq_true] at hmatch
  obtain ⟨htypeb, hlenb⟩ := hmatch
  have htype : room.room_type = RoomType.DIRECT := by
    exact beq_iff_eq.mp htypeb
  have hlen2 : (db.memberships.filter
      (fun m => m.room_id == room.id &&
        (sortedPair a b).contains m.user_id)).length = 2 := by
    exact beq_iff_eq.mp hlenb
  have ht2 : (db.memberships.filter (fun m => m.room_id == room.id)).length = 2 :=
    hwf.2.2.2 room hroom htype
  have hcomm : db.memberships.filter
        (fun m => m.room_id == room.id && (sortedPair a b).contains m.user_id)
      = db.memberships.filter
        (fun m => (sortedPair a b).contains m.user_id && m.room_id == room.id) := by
    apply List.filter_congr
    intro m _
    exact Bool.and_comm _ _
  have hsplit : db.memberships.filter
        (fun m => (sortedPair a b).contains m.user_id && m.room_id == room.id)
      = (db.memberships.filter (fun m => m.room_id == room.id)).filter
        (fun m => (sortedPair a b).contains m.user_id) :=
    (List.filter_filter _ _).symm
  have hsub : (db.memberships.filter (fun m => m.room_id == room.id)).filter
        (fun m => (sortedPair a b).contains m.user_id)
      = db.memberships.filter (fun m => m.room_id == room.id) := by
    apply List.Sublist.eq_of_length (List.filter_sublist _)
    rw [← hsplit, ← hcomm, hlen2, ht2]
  have hall : ∀ m ∈ db.memberships.filter (fun m => m.room_id == room.id),
      (sortedPair a b).contains m.user_id = true := by
    intro m hm
    rw [← hsub] at hm
    exact (List.mem_filter.mp hm).2
  obtain ⟨m1, m2, ht⟩ := List.length_eq_two.mp ht2
  have hm1 : m1 ∈ db.memberships.filter (fun m => m.room_id == room.id) := by
    rw [ht]
    exact List.mem_cons_self m1 [m2]
  have hm2 : m2 ∈ db.memberships.filter (fun m => m.room_id == room.id) := by
    rw [ht]
    exact List.mem_cons_of_mem m1 (List.mem_cons_self m2 [])
  have hr1 : m1.room_id = room.id := beq_iff_eq.mp (List.mem_filter.mp hm1).2
  have hr2 : m2.room_id = room.id := beq_iff_eq.mp (List.mem_filter.mp hm2).2
  have hu1 : m1.user_id = a ∨ m1.user_id = b :=
    (mem_sortedPair a b m1.user_id).mp (List.elem_iff.mp (hall m1 hm1))
  have hu2 : m2.user_id = a ∨ m2.user_id = b :=
    (mem_sortedPair a b m2.user_id).mp (List.elem_iff.mp (hall m2 hm2))
  have hpw : (db.memberships.filter (fun m => m.room_id == room.id)).Pairwise
      (fun x y => (x.room_id, x.user_id) ≠ (y.room_id, y.user_id)) :=
    hwf.1.sublist (List.filter_sublist _)
  rw [ht] at hpw
  have hRn : (m1.room_id, m1.user_id) ≠ (m2.room_id, m2.user_id) :=
    (List.pairwise_cons.mp hpw).1 m2 (List.mem_cons_self m2 [])
  have hne : m1.user_id ≠ m2.user_id := by
    intro he
    exact hRn (by rw [hr1, hr2, he])
  rw [ht]
  constructor
  · rfl
  · intro x
    constructor
    · intro hx
      simp only [List.map_cons, List.map_nil, List.mem_cons,
        List.not_mem_nil, or_false] at hx
      rcases hx with rfl | rfl
      · exact hu1
      · exact hu2
    · intro hx
      simp only [List.map_cons, List.map_nil, List.mem_cons,
        List.not_mem_nil, or_false]
      rcases hx with rfl | rfl
      · rcases hu1 with h1 | h1
        · exact Or.inl h1.symm
        · rcases hu2 with h2 | h2
          · exact Or.inr h2.symm
          · exact absurd (h1.trans h2.symm) hne
      · rcases hu1 with h1 | h1
        · rcases hu2 with h2 | h2
          · exact absurd (h1.trans h2.symm) hne
          · exact Or.inr h2.symm
        · exact Or.inl h1.symm

/-- Lemma: the fresh room's id is the room autoincrement counter. -/
theorem newDirectRoom_id (db : DB) : (newDirectRoom db).id = db.next_room_id := rfl

/-- Lemma: the dedup test is unchanged by appending the fresh membership rows
when the tested room predates the fresh room. -/
theorem directRoomMatches_append (db db' : DB) (u : List Nat) (room : ChatRoomRow)
    (hmem : db'.memberships = db.memberships ++ newDirectMemberships db u)
    (hlt : room.id < db.next_room_id) :
    directRoomMatches db' u room = directRoomMatches db u room := by
  unfold directRoomMatches
  rw [hmem, List.filter_append]
  have h0 : (newDirectMemberships db u).filter
      (fun m => m.room_id == room.id && u.contains m.user_id) = [] := by
    rw [List.filter_eq_nil_iff]
    intro m hm hcontra
    rw [Bool.and_eq_true, beq_iff_eq] at hcontra
    have hr := newDirectMemberships_room_id db u m hm
    omega
  rw [h0, List.append_nil]

/-- Lemma: after the insertion, the fresh room satisfies the dedup test for
the same sorted pair. -/
theorem directRoomMatches_new (db : DB) (a b : Nat) (db' : DB) (hwf : WF db)
    (hmem : db'.memberships = db.memberships ++ newDirectMemberships db (sortedPair a b)) :
    directRoomMatches db' (sortedPair a b) (newDirectRoom db) = true := by
  unfold directRoomMatches
  rw [Bool.and_eq_true]
  constructor
  · exact beq_iff_eq.mpr rfl
  · rw [hmem, List.filter_append]
    have h0 : db.memberships.filter
        (fun m => m.room_id == (newDirectRoom db).id &&
          (sortedPair a b).contains m.user_id) = [] := by
      rw [List.filter_eq_nil_iff]
      intro m hm hcontra
      rw [Bool.and_eq_true, beq_iff_eq, newDirectRoom_id] at hcontra
      have := hwf.2.2.1 m hm
      omega
    have h1 : (newDirectMemberships db (sortedPair a b)).filter
        (fun m => m.room_id == (newDirectRoom db).id &&
          (sortedPair a b).contains m.user_id)
        = newDirectMemberships db (sortedPair a b) := by
      rw [List.filter_eq_self]
      intro m hm
      rw [Bool.and_eq_true, beq_iff_eq, newDirectRoom_id]
      refine ⟨newDirectMemberships_room_id db _ m hm, ?_⟩
      apply List.elem_iff.mpr
      have hx : m.user_id ∈ (newDirectMemberships db (sortedPair a b)).map
          (fun m => m.user_id) := List.mem_map_of_mem _ hm
      rwa [newDirectMemberships_user_ids] at hx
    rw [h0, h1, List.nil_append]
    exact beq_iff_eq.mpr (by rw [newDirectMemberships_length, sortedPair_length])

/-- Lemma: after the insertion, re-running the dedup query finds exactly the
fresh room. -/
theorem create_find (db : DB) (a b : Nat) (hwf : WF db)
    (hfind : db.rooms.find? (directRoomMatches db (sortedPair a b)) = none)
    (db' : DB)
    (hrooms : db'.rooms = db.rooms ++ [newDirectRoom db])
    (hmem : db'.memberships = db.memberships ++ newDirectMemberships db (sortedPair a b)) :
    db'.rooms.find? (directRoomMatches db' (sortedPair a b)) = some (newDirectRoom db) := by
  rw [hrooms, List.find?_append]
  have h1 : db.rooms.find? (directRoomMatches db' (sortedPair a b)) = none := by
    rw [List.find?_eq_none]
    intro room hroom
    rw [directRoomMatches_append db db' (sortedPair a b) room hmem (hwf.2.1 room hroom)]
    exact List.find?_eq_none.mp hfind room hroom
  have h2 : [newDirectRoom db].find? (directRoomMatches db' (sortedPair a b))
      = some (newDirectRoom db) := by
    have hnew := directRoomMatches_new db a b db' hwf hmem
    simp [List.find?, hnew]
  rw [h1, h2]
  rfl

/-- Lemma: after the insertion, the fresh room's membership rows are exactly
the inserted ones. -/
theorem create_filter (db : DB) (a b : Nat) (hwf : WF db) (db' : DB)
    (hmem : db'.memberships = db.memberships ++ newDirectMemberships db (sortedPair a b)) :
    db'.memberships.filter (fun m => m.room_id == (newDirectRoom db).id)
      = newDirectMemberships db (sortedPair a b) := by
  rw [hmem, List.filter_append]
  have h0 : db.memberships.filter
      (fun m => m.room_id == (newDirectRoom db).id) = [] := by
    rw [List.filter_eq_nil_iff]
    intro m hm hcontra
    rw [beq_iff_eq, newDirectRoom_id] at hcontra
    have := hwf.2.2.1 m hm
    omega
  have h1 : (newDirectMemberships db (sortedPair a b)).filter
      (fun m => m.room_id == (newDirectRoom db).id)
      = newDirectMemberships db (sortedPair a b) := by
    rw [List.filter_eq_self]
    intro m hm
    rw [beq_iff_eq, newDirectRoom_id]
    exact newDirectMemberships_room_id db _ m hm
  rw [h0, h1, List.nil_append]

/-- Claim C8: `get_or_create_direct_room` on a well-formed store is symmetric
and idempotent for a pair of distinct users — the two argument orders give
identical results, re-running the call on the resulting store returns the
same DIRECT room with the store unchanged (so no duplicate room is ever
created), and the returned room has exactly two membership rows whose users
are exactly the unordered pair. -/
theorem direct_room_idempotent_symmetric (db : DB) (a b : Nat) (hab : a ≠ b)
    (hwf : WF db) :
    get_or_create_direct_room db b a = get_or_create_direct_room db a b
    ∧ get_or_create_direct_room (get_or_create_direct_room db a b).2 a b
        = get_or_create_direct_room db a b
    ∧ get_or_create_direct_room (get_or_create_direct_room db a b).2 b a
        = get_or_create_direct_room db a b
    ∧ (get_or_create_direct_room db a b).1.room_type = RoomType.DIRECT
    ∧ (((get_or_create_direct_room db a b).2.memberships.filter
          (fun m => m.room_id == (get_or_create_direct_room db a b).1.id)).map
          (fun m => m.user_id)).length = 2
    ∧ ∀ x, (x ∈ ((get_or_create_direct_room db a b).2.memberships.filter
          (fun m => m.room_id == (get_or_create_direct_room db a b).1.id)).map
          (fun m => m.user_id)) ↔ (x = a ∨ x = b) := by
  cases hfind : db.rooms.find? (directRoomMatches db (sortedPair a b)) with
  | some room =>
    have h1 : get_or_create_direct_room db a b = (room, db) :=
      goc_found db a b room hfind
    have hfst : (get_or_create_direct_room db a b).1 = room := by rw [h1]
    have hsnd : (get_or_create_direct_room db a b).2 = db := by rw [h1]
    have hmatch := List.find?_some hfind
    have hroommem := List.mem_of_find?_eq_some hfind
    have htype : room.room_type = RoomType.DIRECT := by
      unfold directRoomMatches at hmatch
      rw [Bool.and_eq_true] at hmatch
      exact beq_iff_eq.mp hmatch.1
    have hchar := found_room_memberships db a b hwf room hroommem
      (List.find?_some hfind)
    refine ⟨goc_comm db a b, ?_, ?_, ?_, ?_, ?_⟩
    · rw [hsnd]
    · rw [hsnd]
      exact goc_comm db a b
    · rw [hfst]
      exact htype
    · rw [hfst, hsnd]
      exact hchar.1
    · rw [hfst, hsnd]
      exact hchar.2
  | none =>
    have h1 := goc_create db a b hfind
    have hfst : (get_or_create_direct_room db a b).1 = newDirectRoom db := by
      rw [h1]
    have hrooms1 : (get_or_create_direct_room db a b).2.rooms
        = db.rooms ++ [newDirectRoom db] := by
      rw [h1]
    have hmem1 : (get_or_create_direct_room db a b).2.memberships
        = db.memberships ++ newDirectMemberships db (sortedPair a b) := by
      rw [h1]
    have hfind2 := create_find db a b hwf hfind
      (get_or_create_direct_room db a b).2 hrooms1 hmem1
    have h2 : get_or_create_direct_room (get_or_create_direct_room db a b).2 a b
        = (newDirectRoom db, (get_or_create_direct_room db a b).2) :=
      goc_found _ a b _ hfind2
    have hpair : (newDirectRoom db, (get_or_create_direct_room db a b).2)
        = get_or_create_direct_room db a b := by
      rw [h1]
    refine ⟨goc_comm db a b, h2.trans hpair, ?_, ?_, ?_, ?_⟩
    · exact (goc_comm _ a b).trans (h2.trans hpair)
    · rw [hfst]
      rfl
    · rw [hfst, create_filter db a b hwf _ hmem1,
        newDirectMemberships_user_ids]
      exact sortedPair_length a b
    · intro x
      rw [hfst, create_filter db a b hwf _ hmem1,
        newDirectMemberships_user_ids]
      exact mem_sortedPair a b x

/-- Witness for C8: in the sample store the DIRECT room between users 1 and 3
already exists (room 2), so both argument orders return it and a repeat call
leaves the store unchanged. -/
theorem direct_room_idempotent_symmetric_witness :
    get_or_create_direct_room dbEx 3 1 = get_or_create_direct_room dbEx 1 3
    ∧ get_or_create_direct_room (get_or_create_direct_room dbEx 1 3).2 1 3
        = get_or_create_direct_room dbEx 1 3
    ∧ get_or_create_direct_room (get_or_create_direct_room dbEx 1 3).2 3 1
        = get_or_create_direct_room dbEx 1 3
    ∧ (get_or_create_direct_room dbEx 1 3).1.room_type = RoomType.DIRECT
    ∧ (((get_or_create_direct_room dbEx 1 3).2.memberships.filter
          (fun m => m.room_id == (get_or_create_direct_room dbEx 1 3).1.id)).map
          (fun m => m.user_id)).length = 2
    ∧ ∀ x, (x ∈ ((get_or_create_direct_room dbEx 1 3).2.memberships.filter
          (fun m => m.room_id == (get_or_create_direct_room dbEx 1 3).1.id)).map
          (fun m => m.user_id)) ↔ (x = 1 ∨ x = 3) :=
  direct_room_idempotent_symmetric dbEx 1 3 (by decide)
    ⟨by decide, by decide, by decide, by decide⟩
